import Mathlib

/-!
Verification of the referral polling and deduplication pipeline
(src/services/bot.ts, src/services/email.ts, src/services/sms.ts,
src/models/referrals.ts, src/models/notification.ts).

The embedding models the persistent store as explicit lists of records,
the polling cycle `checkForNewReferrals` as a pure function over a cycle
input (the outcomes of the external calls: login, cookie jar, fetch,
channel transports, clock readings) and the mutable module state
(`browser`/`page` nullity collapsed to `sessionOpen`, and
`lastCheckTime`), and the side effects as an explicit event trace.
Timestamps are integers (JavaScript millisecond clock); `Date` parsing of
the `requestOn` string is an abstract parameter `parseDate : String →
Option Int`, where `none` models an Invalid Date (whose comparison with
any date is false in JavaScript).
-/

namespace Chidease

/-- Candidate referral as returned by the portal referrals API
(`ReferralResponse.referrals` element, bot.ts lines 26–39). -/
structure Referral where
  memberName : String
  memberID : String
  serviceName : String
  regionName : String
  county : String
  plan : String
  preferredStartDate : String
  status : String
  requestOn : String
  deriving Repr, DecidableEq

/-- Persisted referral document (Referral collection, referrals.ts
lines 55–107). `id` models the store-assigned `_id`. The schema declares
no unique index; uniqueness can only come from the persistence logic. -/
structure ReferralRecord where
  id : Nat
  memberName : String
  memberID : String
  serviceName : String
  regionName : String
  county : String
  plan : String
  preferredStartDate : String
  status : String
  requestOn : String
  isNotified : Bool
  deriving Repr, DecidableEq

/-- Persisted notification document (Notification collection,
notification.ts lines 12–38). -/
structure NotificationRecord where
  id : Nat
  referralId : Nat
  memberName : String
  memberID : String
  message : String
  deriving Repr, DecidableEq

/-- The persistent store: both collections plus an id allocator. -/
structure Store where
  referrals : List ReferralRecord
  notifications : List NotificationRecord
  nextId : Nat
  deriving Repr, DecidableEq

/-- Lookup used by the API path (bot.ts lines 1321–1324):
`Referral.findOne({ memberID, requestOn })`. -/
def findByNaturalKey (store : Store) (memberID requestOn : String) :
    Option ReferralRecord :=
  store.referrals.find? (fun rec => rec.memberID == memberID && rec.requestOn == requestOn)

/-- Lookup used by the UI-scrape path (bot.ts lines 1210–1213):
`Referral.findOne({ memberID, memberName })`. -/
def findByIDName (store : Store) (memberID memberName : String) :
    Option ReferralRecord :=
  store.referrals.find? (fun rec => rec.memberID == memberID && rec.memberName == memberName)

/-- Two persisted records share the natural key `(memberID, requestOn)`. -/
def sameKey (a b : ReferralRecord) : Bool :=
  a.memberID == b.memberID && a.requestOn == b.requestOn

/-- No two records in the list share the natural key. -/
def noDupKeys : List ReferralRecord → Bool
  | [] => true
  | r :: rs => rs.all (fun x => !(sameKey r x)) && noDupKeys rs

/-- Number of records in the store carrying a given natural key. -/
def countKey (store : Store) (memberID requestOn : String) : Nat :=
  store.referrals.countP (fun rec => rec.memberID == memberID && rec.requestOn == requestOn)

/-- Record created by the API path (bot.ts lines 1329–1332):
`Referral.create({ ...referral, isNotified: false })`. -/
def mkApiRecord (id : Nat) (r : Referral) : ReferralRecord :=
  { id := id, memberName := r.memberName, memberID := r.memberID,
    serviceName := r.serviceName, regionName := r.regionName, county := r.county,
    plan := r.plan, preferredStartDate := r.preferredStartDate, status := r.status,
    requestOn := r.requestOn, isNotified := false }

/-- Notification created by the API path (bot.ts lines 1337–1342). -/
def mkApiNotification (id referralId : Nat) (r : Referral) : NotificationRecord :=
  { id := id, referralId := referralId, memberName := r.memberName,
    memberID := r.memberID,
    message := "New referral for " ++ r.memberName ++ " (" ++ r.serviceName ++
      ") received on " ++ r.requestOn }

/-- Update performed by `savedReferral.isNotified = true; await
savedReferral.save()` (bot.ts lines 1366–1367). -/
def markNotified (store : Store) (id : Nat) : Store :=
  { store with
    referrals := store.referrals.map
      (fun rec => if rec.id = id then { rec with isNotified := true } else rec) }

/-- Observable actions of a polling cycle, in program order. -/
inductive Event where
  | setup : Event
  | login : Event
  | fetchRequest (xsrfToken : String) : Event
  | persist (memberID requestOn : String) (isNotified : Bool) : Event
  | createNotification (referralId : Nat) (memberID : String) : Event
  | emailAttempt (ok : Bool) : Event
  | smsAttempt (ok : Bool) : Event
  | markNotified (referralId : Nat) : Event
  deriving Repr, DecidableEq

/-- Errors a cycle can abort with (the `throw error` paths of
`checkForNewReferrals`). -/
inductive CycleErr where
  | loginFailed : CycleErr
  | fetchFailed (httpStatus : Option Nat) : CycleErr
  | emailError : CycleErr
  | smsError : CycleErr
  deriving Repr, DecidableEq

/-- Module-level mutable state of bot.ts: `browser`/`page` nullity
(lines 16–17) collapsed to `sessionOpen`, and `lastCheckTime`
(line 18). -/
structure BotState where
  sessionOpen : Bool
  lastCheckTime : Int
  deriving Repr, DecidableEq

/-- Outcomes of the external calls a single run of `checkForNewReferrals`
makes, plus the two wall-clock readings bracketing the fetch. The code
reads the clock only once, at bot.ts line 1303, after the fetch response:
that reading is `nowAtCapture`. `cycleStart` is what a reading at entry
to the function would have returned; the code never takes it, and it is
carried here only so that specification-level statements about the cycle
start time can be expressed (physically `cycleStart ≤ nowAtCapture`). -/
structure CycleInput where
  loginOk : Bool
  cookies : String
  cycleStart : Int
  nowAtCapture : Int
  fetchResult : Except (Option Nat) (List Referral)
  emailOk : Referral → Bool
  smsOk : Referral → Bool

/-- Result of one run of `checkForNewReferrals`: the thrown error if any,
the module state after the run, the store after the run, and the trace of
observable actions. -/
structure CycleResult where
  outcome : Option CycleErr
  state : BotState
  store : Store
  trace : List Event

/-- Pattern of the regular expression in `extractXsrfToken`
(bot.ts line 1402). -/
def xsrfPat : List Char := String.toList "XSRF-TOKEN="

/-- Whether `pat` occurs at the head of `l`. -/
def startsWithPat : List Char → List Char → Bool
  | [], _ => true
  | _ :: _, [] => false
  | p :: ps, c :: cs => p == c && startsWithPat ps cs

/-- Maximal run of characters before a semicolon: the `[^;]+` capture
group, applied greedily. -/
def takeValue : List Char → List Char
  | [] => []
  | c :: cs => if c == ';' then [] else c :: takeValue cs

/-- Left-to-right scan of `/XSRF-TOKEN=([^;]+)/`: at each position try to
match the literal pattern followed by a non-empty capture; on failure
resume one character later, exactly as the regular-expression engine
does. -/
def scanXsrf : List Char → Option (List Char)
  | [] => none
  | c :: cs =>
    if startsWithPat xsrfPat (c :: cs) then
      let value := takeValue (List.drop xsrfPat.length (c :: cs))
      if value.isEmpty then scanXsrf cs else some value
    else scanXsrf cs

/-- Translation of `extractXsrfToken` (bot.ts lines 1401–1404):
`cookies.match(/XSRF-TOKEN=([^;]+)/)` returning the capture group when
the pattern matches and the empty string otherwise. -/
def extractXsrfToken (cookies : String) : String :=
  match scanXsrf cookies.toList with
  | some value => String.mk value
  | none => ""

/-- Whether the literal text `XSRF-TOKEN=` occurs anywhere in the
character list (presence of the XSRF-TOKEN cookie name). -/
def containsXsrfName : List Char → Bool
  | [] => false
  | c :: cs => startsWithPat xsrfPat (c :: cs) || containsXsrfName cs

/-- The watermark filter of bot.ts lines 1307–1310:
`referrals.filter((referral) => new Date(referral.requestOn) > lastCheckTime)`.
`parseDate` models JavaScript date parsing; `none` is an Invalid Date,
whose comparison with any date is false. -/
def filterNew (parseDate : String → Option Int) (lastCheck : Int)
    (referrals : List Referral) : List Referral :=
  referrals.filter (fun r =>
    match parseDate r.requestOn with
    | some t => decide (lastCheck < t)
    | none => false)

/-- Per-candidate processing loop of bot.ts lines 1316–1372, in
input order. For a candidate whose natural key is absent: create the
record with `isNotified := false`, create the notification, send the
email, send the SMS, then mark the record notified. Each channel call
models `sendEmail`/`sendSMS`, which rethrow transport errors
(email.ts lines 71–74, sms.ts lines 44–47); a throw propagates out of the
loop, aborting the remaining candidates. For a candidate whose key is
present: skip. Returns the thrown error if any, the store, and the trace
of the performed actions. -/
def processReferrals (emailOk smsOk : Referral → Bool) :
    List Referral → Store → Option CycleErr × Store × List Event
  | [], store => (none, store, [])
  | r :: rest, store =>
    match findByNaturalKey store r.memberID r.requestOn with
    | some _ => processReferrals emailOk smsOk rest store
    | none =>
      let saved := mkApiRecord store.nextId r
      let store1 : Store :=
        { store with referrals := store.referrals ++ [saved], nextId := store.nextId + 1 }
      let notif := mkApiNotification store1.nextId saved.id r
      let store2 : Store :=
        { store1 with
          notifications := store1.notifications ++ [notif],
          nextId := store1.nextId + 1 }
      let log1 : List Event :=
        [Event.persist r.memberID r.requestOn false,
         Event.createNotification saved.id r.memberID]
      if emailOk r then
        if smsOk r then
          let store3 := markNotified store2 saved.id
          let next := processReferrals emailOk smsOk rest store3
          (next.1, next.2.1,
            log1 ++ [Event.emailAttempt true, Event.smsAttempt true,
              Event.markNotified saved.id] ++ next.2.2)
        else
          (some CycleErr.smsError, store2,
            log1 ++ [Event.emailAttempt true, Event.smsAttempt false])
      else
        (some CycleErr.emailError, store2, log1 ++ [Event.emailAttempt false])

/-- Translation of `checkForNewReferrals` (bot.ts lines 1256–1399).
Steps: ensure login (running `setupBot` first when `browser`/`page` are
null, bot.ts lines 201–204); get cookies; extract the XSRF token; issue
the fetch; on success read the clock (line 1303), filter by the
watermark, process each new candidate, then set `lastCheckTime` to the
clock reading (line 1379). The catch block (lines 1381–1398) closes the
browser and nulls `browser`/`page` exactly when the error is an HTTP
response with status 401 or 403, and rethrows in every case, so the
watermark assignment is not reached on any error. -/
def checkForNewReferrals (parseDate : String → Option Int) (inp : CycleInput)
    (st : BotState) (store : Store) : CycleResult :=
  let log0 : List Event :=
    if st.sessionOpen then [Event.login] else [Event.setup, Event.login]
  if inp.loginOk then
    let st1 : BotState := { st with sessionOpen := true }
    let xsrf := extractXsrfToken inp.cookies
    let log1 := log0 ++ [Event.fetchRequest xsrf]
    match inp.fetchResult with
    | Except.error status =>
      if status = some 401 ∨ status = some 403 then
        { outcome := some (CycleErr.fetchFailed status),
          state := { st1 with sessionOpen := false }, store := store, trace := log1 }
      else
        { outcome := some (CycleErr.fetchFailed status),
          state := st1, store := store, trace := log1 }
    | Except.ok referrals =>
      let currentTime := inp.nowAtCapture
      let newOnes := filterNew parseDate st.lastCheckTime referrals
      match processReferrals inp.emailOk inp.smsOk newOnes store with
      | (none, store1, log2) =>
        { outcome := none, state := { st1 with lastCheckTime := currentTime },
          store := store1, trace := log1 ++ log2 }
      | (some e, store1, log2) =>
        { outcome := some e, state := st1, store := store1, trace := log1 ++ log2 }
  else
    { outcome := some CycleErr.loginFailed, state := st, store := store, trace := log0 }

/-- Module initial state: `browser = null`, `page = null` (bot.ts
lines 16–17) and `lastCheckTime = new Date()` at module load
(line 18), i.e. the process start time. -/
def initialBotState (processStart : Int) : BotState :=
  { sessionOpen := false, lastCheckTime := processStart }

/-- Sequential composition of polling cycles (the timer loop of
`startReferralMonitoring`, bot.ts lines 1407–1428, which never overlaps
cycles). -/
def runCycles (parseDate : String → Option Int) :
    List CycleInput → BotState → Store → BotState × Store
  | [], st, store => (st, store)
  | inp :: rest, st, store =>
    let res := checkForNewReferrals parseDate inp st store
    runCycles parseDate rest res.state res.store

/-- Member row scraped from the UI-rendered referral list
(`MemberData`, bot.ts lines 42–49); optional fields model the
possibly-undefined properties. -/
structure MemberData where
  memberName : String
  memberID : String
  serviceName : Option String
  status : Option String
  requestDate : Option String
  deriving Repr, DecidableEq

/-- JavaScript `a || d` for an optional string `a`: the default is taken
when the value is undefined or the empty string (both falsy). -/
def jsOrElse (o : Option String) (d : String) : String :=
  match o with
  | none => d
  | some s => if s == "" then d else s

/-- Record created by the UI path (bot.ts lines 1219–1226):
`Referral.create({ memberName, memberID, serviceName: member.serviceName || "",
status: member.status || "", requestOn: member.requestDate || new
Date().toISOString(), isNotified: true })`. Fields the UI path does not
set are modelled as empty strings. -/
def mkUiRecord (id : Nat) (nowIso : String) (m : MemberData) : ReferralRecord :=
  { id := id, memberName := m.memberName, memberID := m.memberID,
    serviceName := jsOrElse m.serviceName "", regionName := "", county := "",
    plan := "", preferredStartDate := "", status := jsOrElse m.status "",
    requestOn := jsOrElse m.requestDate nowIso, isNotified := true }

/-- Notification created by the UI path (bot.ts lines 1231–1236). -/
def mkUiNotification (id referralId : Nat) (m : MemberData) : NotificationRecord :=
  { id := id, referralId := referralId, memberName := m.memberName,
    memberID := m.memberID,
    message := "Member found in referrals: " ++ m.memberName ++ " (" ++
      jsOrElse m.serviceName "No service specified" ++ ")" }

/-- Translation of `saveMembersToDatabase` (bot.ts lines 1204–1253). For
each member in input order: look up by `(memberID, memberName)`; if
absent, create the record (already marked notified), create the
notification, send the SMS; if present, skip. The whole loop sits in one
try/catch that only logs (lines 1250–1252), so an SMS throw abandons the
remaining members but the function returns normally. -/
def saveMembersToDatabase (smsOk : MemberData → Bool) (nowIso : String) :
    List MemberData → Store → Store × List Event
  | [], store => (store, [])
  | m :: rest, store =>
    match findByIDName store m.memberID m.memberName with
    | some _ => saveMembersToDatabase smsOk nowIso rest store
    | none =>
      let saved := mkUiRecord store.nextId nowIso m
      let store1 : Store :=
        { store with referrals := store.referrals ++ [saved], nextId := store.nextId + 1 }
      let notif := mkUiNotification store1.nextId saved.id m
      let store2 : Store :=
        { store1 with
          notifications := store1.notifications ++ [notif],
          nextId := store1.nextId + 1 }
      let log1 : List Event :=
        [Event.persist m.memberID saved.requestOn true,
         Event.createNotification saved.id m.memberID]
      if smsOk m then
        let next := saveMembersToDatabase smsOk nowIso rest store2
        (next.1, log1 ++ [Event.smsAttempt true] ++ next.2)
      else
        (store2, log1 ++ [Event.smsAttempt false])

/-- Result of a channel `send` call: whether it returned without raising,
and whether a transport call was attempted. -/
structure SendResult where
  ok : Bool
  transportAttempted : Bool
  deriving Repr, DecidableEq

/-- Email transport configuration drawn from the environment
(email.ts lines 17–30 and 54). -/
structure EmailEnv where
  emailRecipients : Option String
  emailUser : Option String
  emailPass : Option String
  deriving Repr, DecidableEq

/-- JavaScript `s.split(",")` accumulator: splits at every comma and
always yields at least one (possibly empty) piece. -/
def splitCommaAux : List Char → List Char → List (List Char)
  | [], acc => [acc.reverse]
  | c :: cs, acc =>
    if c == ',' then acc.reverse :: splitCommaAux cs []
    else splitCommaAux cs (c :: acc)

/-- JavaScript `s.split(",")`. -/
def splitComma (s : String) : List String :=
  (splitCommaAux s.toList []).map (fun l => String.mk l)

/-- ASCII whitespace, for modelling JavaScript `trim`. -/
def isSpaceChar (c : Char) : Bool :=
  c == ' ' || c == '\t' || c == '\n' || c == '\r'

/-- JavaScript `s.trim()` over the modelled whitespace set. -/
def jsTrim (s : String) : String :=
  String.mk (((s.toList.dropWhile isSpaceChar).reverse.dropWhile isSpaceChar).reverse)

/-- Recipient list computed by `sendEmail` (email.ts line 54):
`process.env.EMAIL_RECIPIENTS?.split(",").map((r) => r.trim()) || []`. -/
def emailRecipientList (env : EmailEnv) : List String :=
  match env.emailRecipients with
  | none => []
  | some s => (splitComma s).map (fun r => jsTrim r)

/-- Translation of `sendEmail` (email.ts lines 49–75): when the recipient
list is empty it returns without transport; otherwise it calls
`transporter.sendMail` — without ever checking `EMAIL_USER`/`EMAIL_PASS`
— and rethrows any transport error (lines 71–74). `transportOk` is the
outcome the transport would produce. -/
def sendEmail (env : EmailEnv) (transportOk : Bool)
    (subject text : String) : SendResult :=
  let recipients := emailRecipientList env
  if recipients.length = 0 then { ok := true, transportAttempted := false }
  else
    let _ := (subject, text)
    { ok := transportOk, transportAttempted := true }

/-- JavaScript truthiness of an optional environment string: undefined
and the empty string are falsy. -/
def jsTruthy (o : Option String) : Bool :=
  match o with
  | none => false
  | some s => !(s == "")

/-- SMS transport configuration drawn from the environment
(sms.ts lines 6–9). -/
structure SmsEnv where
  accountSid : Option String
  authToken : Option String
  fromNumber : Option String
  smsRecipients : Option String
  deriving Repr, DecidableEq

/-- Recipient list computed at module load (sms.ts line 9):
`process.env.SMS_RECIPIENTS?.split(",") || []`. -/
def smsRecipientList (env : SmsEnv) : List String :=
  match env.smsRecipients with
  | none => []
  | some s => splitComma s

/-- Translation of `sendSMS` (sms.ts lines 11–48): missing or empty
credentials return without transport (lines 15–18); an empty recipient
list returns without transport (lines 20–23); otherwise messages are
sent through the transport and any transport error is rethrown
(lines 44–47). -/
def sendSMS (env : SmsEnv) (transportOk : Bool) (message : String) : SendResult :=
  let toNumbers := smsRecipientList env
  if !(jsTruthy env.accountSid) || !(jsTruthy env.authToken) ||
      !(jsTruthy env.fromNumber) then
    { ok := true, transportAttempted := false }
  else if toNumbers.length = 0 then
    { ok := true, transportAttempted := false }
  else
    let _ := message
    { ok := transportOk, transportAttempted := true }

/-- Store transformation the API pipeline performs for one fresh
candidate when both channels succeed: persist with `isNotified := false`,
append the notification, then mark notified. -/
def stepStore (store : Store) (r : Referral) : Store :=
  let saved := mkApiRecord store.nextId r
  let store1 : Store :=
    { store with referrals := store.referrals ++ [saved], nextId := store.nextId + 1 }
  let notif := mkApiNotification store1.nextId saved.id r
  let store2 : Store :=
    { store1 with
      notifications := store1.notifications ++ [notif],
      nextId := store1.nextId + 1 }
  markNotified store2 saved.id

/-- Event sequence the API pipeline emits for one fresh candidate when
both channels succeed, in program order. -/
def stepTrace (store : Store) (r : Referral) : List Event :=
  [Event.persist r.memberID r.requestOn false,
   Event.createNotification store.nextId r.memberID,
   Event.emailAttempt true, Event.smsAttempt true,
   Event.markNotified store.nextId]

/-- Number of fetch requests in a trace. -/
def fetchCount (log : List Event) : Nat :=
  log.countP (fun e =>
    match e with
    | Event.fetchRequest _ => true
    | _ => false)

/-- Date-parse function used to instantiate witnesses: a small lookup
table playing the role of JavaScript date parsing on the handful of
literals the witnesses use. -/
def parseFix (s : String) : Option Int :=
  if s == "50" then some 50
  else if s == "150" then some 150
  else if s == "2023-12-31" then some 1703980800000
  else if s == "2024-01-01" then some 1704067200000
  else none

/-! Helper lemmas (shared by several claim proofs). -/

theorem mem_filterNew (p : String → Option Int) (w : Int) (rs : List Referral)
    (r : Referral) :
    r ∈ filterNew p w rs ↔ r ∈ rs ∧ ∃ t, p r.requestOn = some t ∧ w < t := by
  unfold filterNew
  rw [List.mem_filter]
  constructor
  · rintro ⟨hmem, hpred⟩
    refine ⟨hmem, ?_⟩
    cases hp : p r.requestOn with
    | none => rw [hp] at hpred; exact absurd hpred (by simp)
    | some t =>
      rw [hp] at hpred
      exact ⟨t, rfl, of_decide_eq_true hpred⟩
  · rintro ⟨hmem, t, hp, hlt⟩
    exact ⟨hmem, by rw [hp]; exact decide_eq_true hlt⟩

theorem scanXsrf_eq_none (l : List Char) (h : containsXsrfName l = false) :
    scanXsrf l = none := by
  induction l with
  | nil => rfl
  | cons c cs ih =>
    unfold containsXsrfName at h
    rw [Bool.or_eq_false_iff] at h
    unfold scanXsrf
    rw [h.1]
    exact ih h.2

theorem cycle_trace_shape (p : String → Option Int) (inp : CycleInput)
    (st : BotState) (store : Store) (h : inp.loginOk = true) :
    ∃ tail, (checkForNewReferrals p inp st store).trace =
      (if st.sessionOpen then [Event.login] else [Event.setup, Event.login]) ++
        [Event.fetchRequest (extractXsrfToken inp.cookies)] ++ tail := by
  unfold checkForNewReferrals
  rw [h]
  simp only [if_true]
  cases hf : inp.fetchResult with
  | error status =>
    by_cases hs : status = some 401 ∨ status = some 403
    · exact ⟨[], by simp [hs]⟩
    · exact ⟨[], by simp [hs]⟩
  | ok referrals =>
    rcases hq : processReferrals inp.emailOk inp.smsOk
        (filterNew p st.lastCheckTime referrals) store with ⟨o, store1, log2⟩
    cases o with
    | none => exact ⟨log2, by simp [hq]⟩
    | some e => exact ⟨log2, by simp [hq]⟩

/-- Claim C6 — in every cycle the set of candidates treated as new is
exactly those whose `requestOn`, read as a date, is strictly greater than
the watermark held at filtering time: a candidate at or before the
watermark (or with an unparseable date, which JavaScript compares as
false) is never kept, and every candidate strictly after it is kept.
`filterNew` is the filter `checkForNewReferrals` applies at bot.ts
lines 1307–1310. -/
theorem c6_strict_watermark_filter (p : String → Option Int) (w : Int)
    (rs : List Referral) (r : Referral) :
    r ∈ filterNew p w rs ↔ r ∈ rs ∧ ∃ t, p r.requestOn = some t ∧ w < t := by
  exact mem_filterNew p w rs r

/-- Claim C10 — `extractXsrfToken` is total (a plain function on
strings); when the cookie string contains no `XSRF-TOKEN=` cookie it
returns the empty string, and the cycle still issues the referral fetch
carrying that empty token rather than failing before the request. -/
theorem c10_xsrf_token_total (p : String → Option Int) (inp : CycleInput)
    (st : BotState) (store : Store) (hlogin : inp.loginOk = true)
    (hno : containsXsrfName inp.cookies.toList = false) :
    extractXsrfToken inp.cookies = "" ∧
      Event.fetchRequest "" ∈ (checkForNewReferrals p inp st store).trace := by
  have hx : extractXsrfToken inp.cookies = "" := by
    unfold extractXsrfToken
    rw [scanXsrf_eq_none inp.cookies.toList hno]
  refine ⟨hx, ?_⟩
  obtain ⟨tail, htr⟩ := cycle_trace_shape p inp st store hlogin
  rw [htr, hx]
  simp

/-! Concrete fixtures used by witnesses and counterexamples. -/

/-- Sample candidate referral with `requestOn` parsing to 50. -/
def sampleReferral : Referral :=
  { memberName := "Alice", memberID := "M1", serviceName := "Care",
    regionName := "R", county := "C", plan := "P", preferredStartDate := "2024",
    status := "INCOMING", requestOn := "50" }

/-- Empty persistent store. -/
def emptyStore : Store := { referrals := [], notifications := [], nextId := 0 }

/-- Module state mid-run: session open, watermark 0. -/
def openState : BotState := { sessionOpen := true, lastCheckTime := 0 }

/-- Cycle input for a fully successful cycle observing one candidate. -/
def okInput : CycleInput :=
  { loginOk := true, cookies := "XSRF-TOKEN=abc; x=1", cycleStart := 10,
    nowAtCapture := 20, fetchResult := Except.ok [sampleReferral],
    emailOk := fun _ => true, smsOk := fun _ => true }

/-- Cycle input whose cookie string carries no XSRF-TOKEN cookie. -/
def noTokenInput : CycleInput := { okInput with cookies := "a=b; c=d" }

/-- Witness for C10 at a cookie string with no XSRF-TOKEN cookie. -/
theorem c10_xsrf_token_total_witness :
    extractXsrfToken noTokenInput.cookies = "" ∧
      Event.fetchRequest "" ∈
        (checkForNewReferrals parseFix noTokenInput openState emptyStore).trace :=
  c10_xsrf_token_total parseFix noTokenInput openState emptyStore (by decide) (by decide)

/-! Branch equations for `checkForNewReferrals`, used throughout. -/

theorem cycle_eq_login_failed (p : String → Option Int) (inp : CycleInput)
    (st : BotState) (store : Store) (hl : inp.loginOk = false) :
    checkForNewReferrals p inp st store =
      { outcome := some CycleErr.loginFailed, state := st, store := store,
        trace := if st.sessionOpen then [Event.login]
          else [Event.setup, Event.login] } := by
  unfold checkForNewReferrals
  rw [hl]
  simp

theorem cycle_eq_fetch_error (p : String → Option Int) (inp : CycleInput)
    (st : BotState) (store : Store) (hl : inp.loginOk = true)
    (status : Option Nat) (hf : inp.fetchResult = Except.error status) :
    checkForNewReferrals p inp st store =
      { outcome := some (CycleErr.fetchFailed status),
        state := if status = some 401 ∨ status = some 403 then
            { sessionOpen := false, lastCheckTime := st.lastCheckTime }
          else { sessionOpen := true, lastCheckTime := st.lastCheckTime },
        store := store,
        trace := (if st.sessionOpen then [Event.login]
            else [Event.setup, Event.login]) ++
          [Event.fetchRequest (extractXsrfToken inp.cookies)] } := by
  unfold checkForNewReferrals
  rw [hl, hf]
  by_cases hs : status = some 401 ∨ status = some 403 <;> simp [hs]

theorem cycle_eq_fetch_ok (p : String → Option Int) (inp : CycleInput)
    (st : BotState) (store : Store) (hl : inp.loginOk = true)
    (referrals : List Referral) (hf : inp.fetchResult = Except.ok referrals)
    (o : Option CycleErr) (store1 : Store) (log2 : List Event)
    (hq : processReferrals inp.emailOk inp.smsOk
      (filterNew p st.lastCheckTime referrals) store = (o, store1, log2)) :
    checkForNewReferrals p inp st store =
      { outcome := o,
        state := match o with
          | none => { sessionOpen := true, lastCheckTime := inp.nowAtCapture }
          | some _ => { sessionOpen := true, lastCheckTime := st.lastCheckTime },
        store := store1,
        trace := ((if st.sessionOpen then [Event.login]
            else [Event.setup, Event.login]) ++
          [Event.fetchRequest (extractXsrfToken inp.cookies)]) ++ log2 } := by
  unfold checkForNewReferrals
  rw [hl, hf]
  cases o with
  | none => simp [hq]
  | some e => simp [hq]

theorem cycle_head_setup (p : String → Option Int) (inp : CycleInput)
    (st : BotState) (store : Store) (h : st.sessionOpen = false) :
    (checkForNewReferrals p inp st store).trace.head? = some Event.setup := by
  cases hl : inp.loginOk with
  | false => rw [cycle_eq_login_failed p inp st store hl]; simp [h]
  | true =>
    cases hf : inp.fetchResult with
    | error status =>
      rw [cycle_eq_fetch_error p inp st store hl status hf]; simp [h]
    | ok referrals =>
      rcases hq : processReferrals inp.emailOk inp.smsOk
          (filterNew p st.lastCheckTime referrals) store with ⟨o, store1, log2⟩
      rw [cycle_eq_fetch_ok p inp st store hl referrals hf o store1 log2 hq]
      simp [h]

/-- Claim C2 counterexample — a cycle that completes steps 2–5
successfully (outcome `none`) sets the watermark to the clock reading
taken after the fetch (bot.ts line 1303), which differs from the time at
cycle entry (`cycleStart = 10`, capture = 20): the code captures no
timestamp at step 1. -/
theorem c2_counterexample :
    (checkForNewReferrals parseFix okInput openState emptyStore).outcome = none ∧
    okInput.cycleStart = 10 ∧
    ¬ ((checkForNewReferrals parseFix okInput openState emptyStore).state.lastCheckTime
        = okInput.cycleStart) := by
  decide

/-- Claim C2 (amended) — on a cycle that completes steps 2–5
successfully, `lastCheckTime` is set to the single clock reading the code
takes, at bot.ts line 1303: after the session is ensured and after the
fetch response arrives, not to a timestamp captured at cycle entry. -/
theorem c2_watermark_set_to_post_fetch_time (p : String → Option Int)
    (inp : CycleInput) (st : BotState) (store : Store)
    (h : (checkForNewReferrals p inp st store).outcome = none) :
    (checkForNewReferrals p inp st store).state.lastCheckTime = inp.nowAtCapture := by
  cases hl : inp.loginOk with
  | false => rw [cycle_eq_login_failed p inp st store hl] at h; simp at h
  | true =>
    cases hf : inp.fetchResult with
    | error status =>
      rw [cycle_eq_fetch_error p inp st store hl status hf] at h; simp at h
    | ok referrals =>
      rcases hq : processReferrals inp.emailOk inp.smsOk
          (filterNew p st.lastCheckTime referrals) store with ⟨o, store1, log2⟩
      rw [cycle_eq_fetch_ok p inp st store hl referrals hf o store1 log2 hq] at h ⊢
      cases o with
      | none => rfl
      | some e => simp at h

/-- Witness for the amended C2 at a concrete successful cycle. -/
theorem c2_watermark_witness :
    (checkForNewReferrals parseFix okInput openState emptyStore).state.lastCheckTime
      = okInput.nowAtCapture :=
  c2_watermark_set_to_post_fetch_time parseFix okInput openState emptyStore (by decide)

/-- Claim C5 — when the fetch reports HTTP 401 or 403 the cycle closes
and clears the browser session (bot.ts lines 1389–1392), leaves the
watermark and the store untouched, performs no second fetch within the
cycle, and the next cycle, whatever its input, starts by re-establishing
the session from the closed state (`setupBot`, lines 201–204). -/
theorem c5_auth_expiry_invalidates_session (p : String → Option Int)
    (inp : CycleInput) (st : BotState) (store : Store) (s : Nat)
    (hlogin : inp.loginOk = true)
    (hfetch : inp.fetchResult = Except.error (some s))
    (hs : s = 401 ∨ s = 403) :
    (checkForNewReferrals p inp st store).outcome
        = some (CycleErr.fetchFailed (some s)) ∧
    (checkForNewReferrals p inp st store).state.sessionOpen = false ∧
    (checkForNewReferrals p inp st store).state.lastCheckTime = st.lastCheckTime ∧
    (checkForNewReferrals p inp st store).store = store ∧
    fetchCount (checkForNewReferrals p inp st store).trace = 1 ∧
    (∀ (p2 : String → Option Int) (inp2 : CycleInput) (store2 : Store),
      (checkForNewReferrals p2 inp2
          (checkForNewReferrals p inp st store).state store2).trace.head?
        = some Event.setup) := by
  have hcond : (some s = some 401 ∨ some s = some 403) := by
    rcases hs with h1 | h1
    · exact Or.inl (by rw [h1])
    · exact Or.inr (by rw [h1])
  have hres := cycle_eq_fetch_error p inp st store hlogin (some s) hfetch
  rw [if_pos hcond] at hres
  refine ⟨by rw [hres], by rw [hres], by rw [hres], by rw [hres], ?_, ?_⟩
  · rw [hres]
    cases st.sessionOpen <;>
      simp [fetchCount, List.countP_append, List.countP_cons]
  · intro p2 inp2 store2
    have hclosed : (checkForNewReferrals p inp st store).state.sessionOpen = false := by
      rw [hres]
    exact cycle_head_setup p2 inp2 (checkForNewReferrals p inp st store).state
      store2 hclosed

/-- Witness for C5 at a concrete 403 response. -/
theorem c5_auth_expiry_witness :
    (checkForNewReferrals parseFix
        { okInput with fetchResult := Except.error (some 403) } openState
        emptyStore).outcome = some (CycleErr.fetchFailed (some 403)) ∧
    (checkForNewReferrals parseFix
        { okInput with fetchResult := Except.error (some 403) } openState
        emptyStore).state.sessionOpen = false ∧
    (checkForNewReferrals parseFix
        { okInput with fetchResult := Except.error (some 403) } openState
        emptyStore).state.lastCheckTime = openState.lastCheckTime ∧
    (checkForNewReferrals parseFix
        { okInput with fetchResult := Except.error (some 403) } openState
        emptyStore).store = emptyStore ∧
    fetchCount (checkForNewReferrals parseFix
        { okInput with fetchResult := Except.error (some 403) } openState
        emptyStore).trace = 1 ∧
    (checkForNewReferrals parseFix okInput
        (checkForNewReferrals parseFix
          { okInput with fetchResult := Except.error (some 403) } openState
          emptyStore).state emptyStore).trace.head? = some Event.setup :=
  have h := c5_auth_expiry_invalidates_session parseFix
    { okInput with fetchResult := Except.error (some 403) } openState emptyStore 403
    rfl rfl (Or.inr rfl)
  ⟨h.1, h.2.1, h.2.2.1, h.2.2.2.1, h.2.2.2.2.1,
    h.2.2.2.2.2 parseFix okInput emptyStore⟩

/-- Email configuration with recipients set but no credentials. -/
def noCredsEmailEnv : EmailEnv :=
  { emailRecipients := some "ops@example.com", emailUser := none, emailPass := none }

/-- Claim C8 counterexample — with a non-empty recipient list and no
configured credentials, `sendEmail` still attempts the transport call
(the code never checks `EMAIL_USER`/`EMAIL_PASS`), and a transport
failure is rethrown: the call is neither a no-op nor error-free, contrary
to the claim's credentials clause. -/
theorem c8_counterexample :
    sendEmail noCredsEmailEnv false "subject" "body" =
      { ok := false, transportAttempted := true } := by
  decide

/-- Claim C8 (amended) — an empty recipient list makes either channel
return without error and without a transport attempt; missing or empty
credentials short-circuit only the SMS channel (sms.ts lines 15–18): the
email channel never checks its credentials. -/
theorem c8_empty_config_noop :
    (∀ (env : EmailEnv) (tOk : Bool) (subject text : String),
      emailRecipientList env = [] →
      sendEmail env tOk subject text = { ok := true, transportAttempted := false }) ∧
    (∀ (env : SmsEnv) (tOk : Bool) (msg : String),
      (jsTruthy env.accountSid = false ∨ jsTruthy env.authToken = false ∨
        jsTruthy env.fromNumber = false) →
      sendSMS env tOk msg = { ok := true, transportAttempted := false }) ∧
    (∀ (env : SmsEnv) (tOk : Bool) (msg : String),
      smsRecipientList env = [] →
      sendSMS env tOk msg = { ok := true, transportAttempted := false }) := by
  refine ⟨?_, ?_, ?_⟩
  · intro env tOk subject text h
    simp [sendEmail, h]
  · intro env tOk msg h
    have hcond : (!(jsTruthy env.accountSid) || !(jsTruthy env.authToken) ||
        !(jsTruthy env.fromNumber)) = true := by
      rcases h with h | h | h <;> simp [h]
    simp [sendSMS, hcond]
  · intro env tOk msg h
    by_cases hcond : (!(jsTruthy env.accountSid) || !(jsTruthy env.authToken) ||
        !(jsTruthy env.fromNumber)) = true
    · simp [sendSMS, hcond]
    · simp [sendSMS, hcond, h]

/-- Email configuration with credentials but no recipient variable. -/
def noRecipientsEmailEnv : EmailEnv :=
  { emailRecipients := none, emailUser := some "u", emailPass := some "p" }

/-- SMS configuration with recipients but a missing account SID. -/
def noSidSmsEnv : SmsEnv :=
  { accountSid := none, authToken := some "a", fromNumber := some "f",
    smsRecipients := some "123" }

/-- SMS configuration with credentials but no recipient variable. -/
def noRecipientsSmsEnv : SmsEnv :=
  { accountSid := some "sid", authToken := some "a", fromNumber := some "f",
    smsRecipients := none }

/-- Witness for the amended C8: an unset email recipient variable, an SMS
configuration without credentials, and an SMS configuration with
credentials but no recipient variable, each a transport-free no-op. -/
theorem c8_empty_config_noop_witness :
    sendEmail noRecipientsEmailEnv true "s" "t" =
      { ok := true, transportAttempted := false } ∧
    sendSMS noSidSmsEnv true "m" = { ok := true, transportAttempted := false } ∧
    sendSMS noRecipientsSmsEnv true "m" =
      { ok := true, transportAttempted := false } :=
  ⟨c8_empty_config_noop.1 _ true "s" "t" rfl,
   c8_empty_config_noop.2.1 _ true "m" (Or.inl rfl),
   c8_empty_config_noop.2.2 _ true "m" rfl⟩

/-- Store transformation the UI-scrape path performs for one fresh
member: persist (already marked notified) and append the notification. -/
def uiStepStore (store : Store) (nowIso : String) (m : MemberData) : Store :=
  let saved := mkUiRecord store.nextId nowIso m
  let store1 : Store :=
    { store with referrals := store.referrals ++ [saved], nextId := store.nextId + 1 }
  { store1 with
    notifications := store1.notifications ++ [mkUiNotification store1.nextId saved.id m],
    nextId := store1.nextId + 1 }

/-- Event sequence the UI-scrape path emits for one fresh member when the
SMS succeeds. -/
def uiStepTrace (store : Store) (nowIso : String) (m : MemberData) : List Event :=
  [Event.persist m.memberID (jsOrElse m.requestDate nowIso) true,
   Event.createNotification store.nextId m.memberID,
   Event.smsAttempt true]

/-- Store holding one record persisted by the API path from
`sampleReferral` (natural key `("M1", "50")`, member name `"Alice"`). -/
def apiPersistedStore : Store :=
  { referrals := [mkApiRecord 0 sampleReferral], notifications := [], nextId := 1 }

/-- The same logical referral as `sampleReferral` scraped from the UI,
rendered with a different member name. -/
def scrapedMember : MemberData :=
  { memberName := "Alicia", memberID := "M1", serviceName := none, status := none,
    requestDate := some "50" }

/-- Claim C4 counterexample — the UI path deduplicates on
`(memberID, memberName)` (bot.ts lines 1210–1213), not on the natural key
`(memberID, requestOn)`: a record persisted by the API path under the
natural key `("M1", "50")` is not recognized by the UI path when the
rendered member name differs, and a second record with the same natural
key is persisted. -/
theorem c4_counterexample :
    countKey apiPersistedStore "M1" "50" = 1 ∧
    countKey (saveMembersToDatabase (fun _ => true) "now" [scrapedMember]
        apiPersistedStore).1 "M1" "50" = 2 := by
  decide

/-- Claim C4 (amended) — the UI-scrape path performs its idempotent
upsert keyed on `(memberID, memberName)`: a member is skipped exactly
when a record with that pair exists, and otherwise a record is created
(with `requestOn` defaulted to the scrape time when absent), so duplicate
detection against the API path — which keys on `(memberID, requestOn)` —
is not symmetric. -/
theorem c4_ui_path_keyed_on_member_name (smsOk : MemberData → Bool)
    (nowIso : String) (m : MemberData) (rest : List MemberData) (store : Store) :
    ((findByIDName store m.memberID m.memberName).isSome = true →
      saveMembersToDatabase smsOk nowIso (m :: rest) store =
        saveMembersToDatabase smsOk nowIso rest store) ∧
    (findByIDName store m.memberID m.memberName = none → smsOk m = true →
      saveMembersToDatabase smsOk nowIso (m :: rest) store =
        ((saveMembersToDatabase smsOk nowIso rest (uiStepStore store nowIso m)).1,
          uiStepTrace store nowIso m ++
            (saveMembersToDatabase smsOk nowIso rest (uiStepStore store nowIso m)).2)) := by
  constructor
  · intro h
    obtain ⟨rec, hrec⟩ := Option.isSome_iff_exists.mp h
    simp [saveMembersToDatabase, hrec]
  · intro h hs
    simp [saveMembersToDatabase, h, hs, uiStepStore, uiStepTrace, mkUiRecord]

/-- Witness for the amended C4 at a store already holding the member (by
name) and at a fresh store. -/
theorem c4_ui_path_witness :
    saveMembersToDatabase (fun _ => true) "now"
        [{ memberName := "Alice", memberID := "M1", serviceName := none,
           status := none, requestDate := some "50" }] apiPersistedStore =
      saveMembersToDatabase (fun _ => true) "now" [] apiPersistedStore ∧
    saveMembersToDatabase (fun _ => true) "now" [scrapedMember] emptyStore =
      ((saveMembersToDatabase (fun _ => true) "now" []
          (uiStepStore emptyStore "now" scrapedMember)).1,
        uiStepTrace emptyStore "now" scrapedMember ++
          (saveMembersToDatabase (fun _ => true) "now" []
            (uiStepStore emptyStore "now" scrapedMember)).2) :=
  ⟨(c4_ui_path_keyed_on_member_name (fun _ => true) "now"
      { memberName := "Alice", memberID := "M1", serviceName := none,
        status := none, requestDate := some "50" } [] apiPersistedStore).1 (by decide),
   (c4_ui_path_keyed_on_member_name (fun _ => true) "now" scrapedMember []
      emptyStore).2 (by decide) rfl⟩

/-- Claim C7 — the pipeline handles each new candidate in input order:
when no record with its natural key exists and both channels succeed, it
performs exactly persist (`isNotified = false`), create the notification,
email, SMS, mark notified — in that order (`stepTrace`) — with the store
updated accordingly (`stepStore`), and then continues with the rest; when
a record with the key exists, the candidate is skipped entirely: no
second persist, no second notification, no channel call, no event. -/
theorem c7_per_candidate_pipeline (emailOk smsOk : Referral → Bool)
    (r : Referral) (rest : List Referral) (store : Store) :
    (findByNaturalKey store r.memberID r.requestOn = none →
      emailOk r = true → smsOk r = true →
      processReferrals emailOk smsOk (r :: rest) store =
        ((processReferrals emailOk smsOk rest (stepStore store r)).1,
         (processReferrals emailOk smsOk rest (stepStore store r)).2.1,
         stepTrace store r ++
           (processReferrals emailOk smsOk rest (stepStore store r)).2.2)) ∧
    ((findByNaturalKey store r.memberID r.requestOn).isSome = true →
      processReferrals emailOk smsOk (r :: rest) store =
        processReferrals emailOk smsOk rest store) := by
  constructor
  · intro h he hs
    simp [processReferrals, h, he, hs, stepStore, stepTrace, mkApiRecord]
  · intro h
    obtain ⟨rec, hrec⟩ := Option.isSome_iff_exists.mp h
    simp [processReferrals, hrec]

/-- Witness for C7 at a fresh store and at a store already holding the
candidate's natural key. -/
theorem c7_per_candidate_pipeline_witness :
    processReferrals (fun _ => true) (fun _ => true) [sampleReferral] emptyStore =
      ((processReferrals (fun _ => true) (fun _ => true) []
          (stepStore emptyStore sampleReferral)).1,
       (processReferrals (fun _ => true) (fun _ => true) []
          (stepStore emptyStore sampleReferral)).2.1,
       stepTrace emptyStore sampleReferral ++
         (processReferrals (fun _ => true) (fun _ => true) []
            (stepStore emptyStore sampleReferral)).2.2) ∧
    processReferrals (fun _ => true) (fun _ => true) [sampleReferral]
        apiPersistedStore =
      processReferrals (fun _ => true) (fun _ => true) [] apiPersistedStore :=
  ⟨(c7_per_candidate_pipeline (fun _ => true) (fun _ => true) sampleReferral []
      emptyStore).1 (by decide) rfl rfl,
   (c7_per_candidate_pipeline (fun _ => true) (fun _ => true) sampleReferral []
      apiPersistedStore).2 (by decide)⟩

/-- Cycle input in which the email channel throws for every referral. -/
def emailFailInput : CycleInput := { okInput with emailOk := fun _ => false }

/-- Claim C3 counterexample — with one fresh candidate and a failing
email channel, the persisted record remains but the SMS channel is never
attempted, the record's notified flag stays `false`, and the cycle aborts
without advancing the watermark: the conjunction the claim asserts is
false at this input. -/
theorem c3_counterexample :
    (checkForNewReferrals parseFix emailFailInput openState emptyStore).store.referrals
        ≠ [] ∧
    ¬ ((checkForNewReferrals parseFix emailFailInput openState
          emptyStore).state.lastCheckTime = emailFailInput.nowAtCapture ∧
       Event.smsAttempt true ∈
         (checkForNewReferrals parseFix emailFailInput openState emptyStore).trace ∧
       ((checkForNewReferrals parseFix emailFailInput openState
          emptyStore).store.referrals.all (fun rec => rec.isNotified)) = true) := by
  decide

/-- Claim C3 (amended) — when the email channel throws for a fresh
candidate, the already-persisted record and its notification record
remain (no rollback), and the failure is visible in the trace; but,
because `sendEmail` rethrows (email.ts lines 71–74) and
`checkForNewReferrals` has no per-channel catch, the SMS channel is
not attempted, the record's notified flag stays `false`, the cycle aborts
with the email error, and the watermark is not advanced. -/
theorem c3_email_failure_aborts_cycle (p : String → Option Int)
    (inp : CycleInput) (st : BotState) (store : Store) (r : Referral) (t : Int)
    (hlogin : inp.loginOk = true)
    (hfetch : inp.fetchResult = Except.ok [r])
    (hparse : p r.requestOn = some t)
    (hnew : st.lastCheckTime < t)
    (hfresh : findByNaturalKey store r.memberID r.requestOn = none)
    (hemail : inp.emailOk r = false) :
    (checkForNewReferrals p inp st store).outcome = some CycleErr.emailError ∧
    mkApiRecord store.nextId r ∈
      (checkForNewReferrals p inp st store).store.referrals ∧
    (mkApiRecord store.nextId r).isNotified = false ∧
    mkApiNotification (store.nextId + 1) store.nextId r ∈
      (checkForNewReferrals p inp st store).store.notifications ∧
    Event.emailAttempt false ∈ (checkForNewReferrals p inp st store).trace ∧
    Event.smsAttempt true ∉ (checkForNewReferrals p inp st store).trace ∧
    Event.smsAttempt false ∉ (checkForNewReferrals p inp st store).trace ∧
    (checkForNewReferrals p inp st store).state.lastCheckTime = st.lastCheckTime := by
  have hfil : filterNew p st.lastCheckTime [r] = [r] := by
    simp [filterNew, hparse, hnew]
  have hq : processReferrals inp.emailOk inp.smsOk
      (filterNew p st.lastCheckTime [r]) store =
      (some CycleErr.emailError,
        { referrals := store.referrals ++ [mkApiRecord store.nextId r],
          notifications := store.notifications ++
            [mkApiNotification (store.nextId + 1) store.nextId r],
          nextId := store.nextId + 1 + 1 },
        [Event.persist r.memberID r.requestOn false,
         Event.createNotification store.nextId r.memberID,
         Event.emailAttempt false]) := by
    rw [hfil]
    simp [processReferrals, hfresh, hemail, mkApiRecord]
  have hres := cycle_eq_fetch_ok p inp st store hlogin [r] hfetch _ _ _ hq
  refine ⟨by rw [hres], ?_, rfl, ?_, ?_, ?_, ?_, by rw [hres]⟩
  · rw [hres]; simp
  · rw [hres]; simp
  · rw [hres]; cases st.sessionOpen <;> simp
  · rw [hres]; cases st.sessionOpen <;> simp
  · rw [hres]; cases st.sessionOpen <;> simp

/-- Witness for the amended C3 at a concrete fresh candidate and failing
email channel. -/
theorem c3_email_failure_witness :
    (checkForNewReferrals parseFix emailFailInput openState emptyStore).outcome
        = some CycleErr.emailError ∧
    mkApiRecord emptyStore.nextId sampleReferral ∈
      (checkForNewReferrals parseFix emailFailInput openState
        emptyStore).store.referrals ∧
    (mkApiRecord emptyStore.nextId sampleReferral).isNotified = false ∧
    mkApiNotification (emptyStore.nextId + 1) emptyStore.nextId sampleReferral ∈
      (checkForNewReferrals parseFix emailFailInput openState
        emptyStore).store.notifications ∧
    Event.emailAttempt false ∈
      (checkForNewReferrals parseFix emailFailInput openState emptyStore).trace ∧
    Event.smsAttempt true ∉
      (checkForNewReferrals parseFix emailFailInput openState emptyStore).trace ∧
    Event.smsAttempt false ∉
      (checkForNewReferrals parseFix emailFailInput openState emptyStore).trace ∧
    (checkForNewReferrals parseFix emailFailInput openState
        emptyStore).state.lastCheckTime = openState.lastCheckTime :=
  c3_email_failure_aborts_cycle parseFix emailFailInput openState emptyStore
    sampleReferral 50 rfl rfl rfl (by decide) rfl rfl

/-! Preservation of natural-key uniqueness by the persistence step. -/

theorem sameKey_mark (id : Nat) (a b : ReferralRecord) :
    sameKey (if a.id = id then { a with isNotified := true } else a)
      (if b.id = id then { b with isNotified := true } else b) = sameKey a b := by
  by_cases h1 : a.id = id <;> by_cases h2 : b.id = id <;> simp [sameKey, h1, h2]

theorem noDupKeys_map_mark (id : Nat) (l : List ReferralRecord) :
    noDupKeys (l.map
      (fun rec => if rec.id = id then { rec with isNotified := true } else rec)) =
      noDupKeys l := by
  induction l with
  | nil => rfl
  | cons r rs ih =>
    simp only [List.map_cons, noDupKeys, ih, List.all_map, Function.comp_def]
    congr 1
    have hfun : (fun x : ReferralRecord =>
        !(sameKey (if r.id = id then { r with isNotified := true } else r)
          (if x.id = id then { x with isNotified := true } else x))) =
        (fun x : ReferralRecord => !(sameKey r x)) := by
      funext x
      rw [sameKey_mark]
    rw [hfun]

theorem markNotified_noDup (store : Store) (id : Nat) :
    noDupKeys ((markNotified store id).referrals) = noDupKeys store.referrals :=
  noDupKeys_map_mark id store.referrals

theorem noDupKeys_append_one (l : List ReferralRecord) (a : ReferralRecord)
    (h : noDupKeys l = true) (ha : ∀ x ∈ l, sameKey x a = false) :
    noDupKeys (l ++ [a]) = true := by
  induction l with
  | nil => simp [noDupKeys]
  | cons r rs ih =>
    simp only [noDupKeys, Bool.and_eq_true, List.all_eq_true] at h
    simp only [List.cons_append, noDupKeys, Bool.and_eq_true, List.all_eq_true]
    refine ⟨?_, ih h.2 (fun x hx => ha x (List.mem_cons_of_mem r hx))⟩
    intro x hx
    rcases List.mem_append.mp hx with hx | hx
    · exact h.1 x hx
    · have hxa : x = a := by simpa using hx
      subst hxa
      have hra := ha r (List.mem_cons_self r rs)
      simp [hra]

theorem findByNaturalKey_none_sameKey (store : Store) (r : Referral) (id : Nat)
    (h : findByNaturalKey store r.memberID r.requestOn = none) :
    ∀ x ∈ store.referrals, sameKey x (mkApiRecord id r) = false := by
  intro x hx
  have hpred := List.find?_eq_none.mp h x hx
  simp only [Bool.and_eq_true, beq_iff_eq, not_and] at hpred
  simp only [sameKey, mkApiRecord, Bool.and_eq_false_iff, beq_eq_false_iff_ne, ne_eq]
  by_cases hm : x.memberID = r.memberID
  · exact Or.inr (hpred hm)
  · exact Or.inl hm

theorem processReferrals_noDup (emailOk smsOk : Referral → Bool) :
    ∀ (rs : List Referral) (store : Store), noDupKeys store.referrals = true →
      noDupKeys ((processReferrals emailOk smsOk rs store).2.1.referrals) = true := by
  intro rs
  induction rs with
  | nil =>
    intro store h
    simpa [processReferrals] using h
  | cons r rest ih =>
    intro store h
    cases hfind : findByNaturalKey store r.memberID r.requestOn with
    | some rec =>
      simp only [processReferrals, hfind]
      exact ih store h
    | none =>
      have hfresh : noDupKeys (store.referrals ++ [mkApiRecord store.nextId r]) = true :=
        noDupKeys_append_one store.referrals (mkApiRecord store.nextId r) h
          (findByNaturalKey_none_sameKey store r store.nextId hfind)
      cases he : emailOk r with
      | false =>
        simp only [processReferrals, hfind, he, Bool.false_eq_true, if_false]
        exact hfresh
      | true =>
        cases hsm : smsOk r with
        | false =>
          simp only [processReferrals, hfind, he, hsm, if_true,
            Bool.false_eq_true, if_false]
          exact hfresh
        | true =>
          simp only [processReferrals, hfind, he, hsm, if_true]
          apply ih
          rw [markNotified_noDup]
          exact hfresh

theorem cycle_noDup (p : String → Option Int) (inp : CycleInput) (st : BotState)
    (store : Store) (h : noDupKeys store.referrals = true) :
    noDupKeys ((checkForNewReferrals p inp st store).store.referrals) = true := by
  cases hl : inp.loginOk with
  | false => rw [cycle_eq_login_failed p inp st store hl]; exact h
  | true =>
    cases hf : inp.fetchResult with
    | error status =>
      rw [cycle_eq_fetch_error p inp st store hl status hf]; exact h
    | ok referrals =>
      rcases hq : processReferrals inp.emailOk inp.smsOk
          (filterNew p st.lastCheckTime referrals) store with ⟨o, store1, log2⟩
      rw [cycle_eq_fetch_ok p inp st store hl referrals hf o store1 log2 hq]
      have h2 := processReferrals_noDup inp.emailOk inp.smsOk
        (filterNew p st.lastCheckTime referrals) store h
      rw [hq] at h2
      exact h2

/-- Claim C1 — across any pair of polling cycles, the persistence step
preserves natural-key uniqueness: if the store holds at most one record
per `(memberID, requestOn)` before the two cycles, it still does after
both, even when the same candidate appears in both cycles' fetches — the
lookup-before-create at bot.ts lines 1321–1332 is what maintains the
invariant, since the schema itself declares no unique index. -/
theorem c1_at_most_one_per_key (p : String → Option Int)
    (inp1 inp2 : CycleInput) (st : BotState) (store : Store)
    (h : noDupKeys store.referrals = true) :
    noDupKeys ((checkForNewReferrals p inp2
      (checkForNewReferrals p inp1 st store).state
      (checkForNewReferrals p inp1 st store).store).store.referrals) = true :=
  cycle_noDup p inp2 (checkForNewReferrals p inp1 st store).state
    (checkForNewReferrals p inp1 st store).store
    (cycle_noDup p inp1 st store h)

/-- Witness for C1: the same candidate fetched in two consecutive cycles
starting from the empty store. -/
theorem c1_at_most_one_per_key_witness :
    noDupKeys emptyStore.referrals = true ∧
    noDupKeys (CycleResult.store (checkForNewReferrals parseFix okInput
      (checkForNewReferrals parseFix okInput openState emptyStore).state
      (checkForNewReferrals parseFix okInput openState emptyStore).store)).referrals
      = true :=
  ⟨by decide,
   c1_at_most_one_per_key parseFix okInput okInput openState emptyStore (by decide)⟩

/-! Watermark growth across cycles. -/

theorem cycle_lastCheck_cases (p : String → Option Int) (inp : CycleInput)
    (st : BotState) (store : Store) :
    (checkForNewReferrals p inp st store).state.lastCheckTime = st.lastCheckTime ∨
    (checkForNewReferrals p inp st store).state.lastCheckTime = inp.nowAtCapture := by
  cases hl : inp.loginOk with
  | false => left; rw [cycle_eq_login_failed p inp st store hl]
  | true =>
    cases hf : inp.fetchResult with
    | error status =>
      left
      rw [cycle_eq_fetch_error p inp st store hl status hf]
      by_cases hs : status = some 401 ∨ status = some 403 <;> simp [hs]
    | ok referrals =>
      rcases hq : processReferrals inp.emailOk inp.smsOk
          (filterNew p st.lastCheckTime referrals) store with ⟨o, store1, log2⟩
      rw [cycle_eq_fetch_ok p inp st store hl referrals hf o store1 log2 hq]
      cases o with
      | none => right; rfl
      | some e => left; rfl

theorem runCycles_watermark_ge (p : String → Option Int) (ps : Int) :
    ∀ (inps : List CycleInput) (st : BotState) (store : Store),
      ps ≤ st.lastCheckTime → (∀ inp ∈ inps, ps ≤ inp.nowAtCapture) →
      ps ≤ (runCycles p inps st store).1.lastCheckTime := by
  intro inps
  induction inps with
  | nil =>
    intro st store h _
    simpa [runCycles] using h
  | cons inp rest ih =>
    intro st store h hc
    simp only [runCycles]
    apply ih
    · rcases cycle_lastCheck_cases p inp st store with hcase | hcase
      · rw [hcase]; exact h
      · rw [hcase]; exact hc inp (List.mem_cons_self inp rest)
    · intro i hi
      exact hc i (List.mem_cons_of_mem inp hi)

/-- Claim C9 — `lastCheckTime` starts at the process start time
(`initialBotState`, modelling bot.ts line 18), each successful cycle only
moves it to a clock reading taken during that cycle, and the API filter
is strict: hence after any number of cycles whose clock readings are at
or after process start, a candidate whose `requestOn` is at or before the
process start time is never classified as new. -/
theorem c9_no_backfill_before_start (p : String → Option Int) (ps : Int)
    (inps : List CycleInput) (store : Store) (rs : List Referral) (r : Referral)
    (t : Int)
    (hclock : ∀ inp ∈ inps, ps ≤ inp.nowAtCapture)
    (hparse : p r.requestOn = some t) (ht : t ≤ ps) :
    r ∉ filterNew p
      (runCycles p inps (initialBotState ps) store).1.lastCheckTime rs := by
  intro hmem
  obtain ⟨-, t2, hp2, hlt⟩ :=
    (mem_filterNew p (runCycles p inps (initialBotState ps) store).1.lastCheckTime
      rs r).mp hmem
  rw [hparse] at hp2
  obtain rfl : t = t2 := Option.some.inj hp2
  have hge : ps ≤ (runCycles p inps (initialBotState ps) store).1.lastCheckTime :=
    runCycles_watermark_ge p ps inps (initialBotState ps) store
      (by simp [initialBotState]) hclock
  omega

/-- Cycle input whose clock reading is after the process start used in
the C9 witness, fetching an empty candidate list. -/
def lateClockInput : CycleInput :=
  { okInput with nowAtCapture := 150, fetchResult := Except.ok [] }

/-- Witness for C9: process start 100, one later cycle at clock 150, and
a candidate dated 50 — never classified as new. -/
theorem c9_no_backfill_witness :
    sampleReferral ∉ filterNew parseFix
      (runCycles parseFix [lateClockInput] (initialBotState 100)
        emptyStore).1.lastCheckTime [sampleReferral] :=
  c9_no_backfill_before_start parseFix 100 [lateClockInput] emptyStore
    [sampleReferral] sampleReferral 50
    (by
      intro i hi
      rw [List.mem_singleton] at hi
      subst hi
      decide)
    rfl (by decide)

end Chidease
